/-
Verification of the arbstate inbox-multiplexer core (avail-nitro-adapter).

This file shallowly embeds the `arbstate` package of the repository:
the staged sequencer-message parser (`parseSequencerMessage`), the DAS
payload recovery (`RecoverPayloadFromDasBatch`), and the inbox
multiplexer state machine (`Pop`, `getNextMsg`, `IsCachedSegementLast`,
`advanceSequencerMsg`, `advanceSubMsg`, `DelayedMessagesRead`).

Bytes are modelled as `Nat` (each value < 256 on real inputs), u64
values as `Nat` with explicit `% 2 ^ 64` where the Go code can wrap.
External collaborators that live outside the embedded sources (the
header-byte classifier, brotli and zeroheavy decoders, the DAS reader,
keyset machinery) are threaded in as explicit function parameters, and
the mutable receiver of the Go methods becomes explicit state passing.
-/
import Mathlib

set_option linter.unusedVariables false

/-- Errors surfaced by the core ("hard" errors in the spec's terms).
Each constructor corresponds to one `error` value the Go code creates or
propagates: the short-batch header error, `arbosState.ErrFatalNodeOutOfDate`,
the missing-BlobReader error, `ErrHashMismatch`, backend errors, and
provider-internal errors. -/
inductive Err where
  | missingHeader
  | fatalNodeOutOfDate (headerByte : Nat)
  | blobReaderUnconfigured
  | hashMismatch
  | backendPeek
  | readDelayedInbox (seqNum : Nat)
  | daProvider (code : Nat)
  deriving DecidableEq

/-- Modelled from the spec: `arbostypes.L1IncomingMessageHeader` is outside
the embedded sources; the spec's emission rule (poster, kind, block,
timestamp, request id, base fee) fixes its shape. -/
structure L1IncomingMessageHeader where
  kind : Nat
  poster : Nat
  blockNumber : Nat
  timestamp : Nat
  requestId : Option Nat
  l1BaseFee : Int
  deriving DecidableEq

/-- Modelled from the spec: `arbostypes.L1IncomingMessage`, a header plus
the raw L2 message bytes. -/
structure L1IncomingMessage where
  header : L1IncomingMessageHeader
  l2msg : List Nat
  deriving DecidableEq

/-- Modelled from the spec: `arbostypes.MessageWithMetadata` pairs a
message with the delayed-messages-read count. -/
structure MessageWithMetadata where
  message : L1IncomingMessage
  delayedMessagesRead : Nat
  deriving DecidableEq

/-- Modelled from the spec: the message kind tag for L2 messages
(`arbostypes.L1MessageType_L2Message`). -/
def L1MessageType_L2Message : Nat := 3

/-- Modelled from the spec: the message kind tag of the canonical invalid
placeholder (`arbostypes.L1MessageType_Invalid`). -/
def L1MessageType_Invalid : Nat := 0xFF

/-- Modelled from the spec: the well-known batch poster address
(`l1pricing.BatchPosterAddress`). -/
def BatchPosterAddress : Nat := 0xa4b000000000000000000073657175656e636572

/-- Modelled from the spec: `arbostypes.InvalidL1Message`, the canonical
placeholder emitted when a sub-message cannot be decoded. -/
def InvalidL1Message : L1IncomingMessage :=
  { header := { kind := L1MessageType_Invalid, poster := 0, blockNumber := 0,
                timestamp := 0, requestId := none, l1BaseFee := 0 },
    l2msg := [] }

/-- Modelled from the spec: the decompression bound for an L2 brotli
sub-message (`arbostypes.MaxL2MessageSize`). -/
def MaxL2MessageSize : Nat := 256 * 1024

def MaxDecompressedLen : Nat := 1024 * 1024 * 16

def maxZeroheavyDecompressedLen : Nat := 101 * MaxDecompressedLen / 100 + 64

def MaxSegmentsPerSequencerMessage : Nat := 100 * 1024

def MinLifetimeSecondsForDataAvailabilityCert : Nat := 7 * 24 * 60 * 60

/-- Big-endian interpretation of a byte list, as `binary.BigEndian.Uint64`
does over its 8-byte argument. -/
def beNat (l : List Nat) : Nat := l.foldl (fun acc b => acc * 256 + b) 0

/-- Reads the eight bytes `data[off : off+8]` as a big-endian u64
(`binary.BigEndian.Uint64(data[off : off+8])`). -/
def readU64 (data : List Nat) (off : Nat) : Nat := beNat ((data.drop off).take 8)

/-- Decodes one RLP-encoded unsigned integer from the front of `input`,
following go-ethereum's `Stream.Uint64` (`rlp.NewStream(rd, 16).Uint64()`):
a single byte below 0x80 is its own value (0x00 is a non-canonical
integer), 0x80 is zero, 0x81..0x88 prefix a 1..8 byte big-endian value
that must have no leading zero and must not fit a single byte, and
anything longer, any long-form size, or a list tag is an error. -/
def decodeRlpUint64 (input : List Nat) : Except Unit Nat :=
  match input with
  | [] => Except.error ()
  | b :: rest =>
    if b = 0 then Except.error ()
    else if b ≤ 0x7f then Except.ok b
    else if b = 0x80 then Except.ok 0
    else if b ≤ 0x88 then
      let size := b - 0x80
      let bytesV := rest.take size
      if bytesV.length < size then Except.error ()
      else if bytesV.headD 0 = 0 then Except.error ()
      else
        let v := beNat bytesV
        if v < 128 then Except.error () else Except.ok v
    else Except.error ()

/-- Decodes one RLP byte string from the front of `input`, returning the
string and the remaining input, following go-ethereum's `Stream.Bytes`
(the `stream.Decode(&segment)` calls): single bytes below 0x80 stand for
themselves, 0x80..0xb7 prefix short strings (a one-byte string below
0x80 must use the direct form), 0xb8..0xbf prefix long strings whose
size has no leading zero and is at least 56, and list tags are errors. -/
def decodeRlpString (input : List Nat) : Except Unit (List Nat × List Nat) :=
  match input with
  | [] => Except.error ()
  | b :: rest =>
    if b ≤ 0x7f then Except.ok ([b], rest)
    else if b ≤ 0xb7 then
      let size := b - 0x80
      if rest.length < size then Except.error ()
      else
        let s := rest.take size
        if size = 1 ∧ s.headD 0 ≤ 0x7f then Except.error ()
        else Except.ok (s, rest.drop size)
    else if b ≤ 0xbf then
      let sizeLen := b - 0xb7
      if rest.length < sizeLen then Except.error ()
      else
        let sizeBytes := rest.take sizeLen
        if sizeBytes.headD 0 = 0 then Except.error ()
        else
          let size := beNat sizeBytes
          if size < 56 then Except.error ()
          else if (rest.drop sizeLen).length < size then Except.error ()
          else Except.ok ((rest.drop sizeLen).take size, (rest.drop sizeLen).drop size)
    else Except.error ()

/-- The helper predicates of the header-byte classifier
(`IsDASMessageHeaderByte` and friends). The concrete bit patterns live
outside the embedded sources, so the classifier is threaded in as data;
`specHeaderByteClassifier` below is a concrete instance. -/
structure headerByteClassifier where
  IsDASMessageHeaderByte : Nat → Bool
  IsBlobHashesHeaderByte : Nat → Bool
  IsZeroheavyEncodedHeaderByte : Nat → Bool
  IsBrotliMessageHeaderByte : Nat → Bool
  IsL1AuthenticatedMessageHeaderByte : Nat → Bool
  IsKnownHeaderByte : Nat → Bool

/-- The ambient pure functions `parseSequencerMessage` and `getNextMsg`
call that are defined outside the embedded sources: the header-byte
classifier, the bounded zeroheavy decoder
(`ReadAll(LimitReader(zeroheavy.NewZeroheavyDecoder(...)))`), and
brotli decompression (`arbcompress.Decompress`). -/
structure ParseEnv where
  hdr : headerByteClassifier
  zeroheavyDecode : List Nat → Except Unit (List Nat)
  Decompress : List Nat → Nat → Except Unit (List Nat)

/-- `KeysetValidationMode uint8`. -/
def KeysetValidationMode : Type := Nat

def KeysetValidate : KeysetValidationMode := (0 : Nat)

def KeysetPanicIfInvalid : KeysetValidationMode := (1 : Nat)

def KeysetDontValidate : KeysetValidationMode := (2 : Nat)

/-- Decidable equality for the validation mode (it is a `Nat`). -/
instance : DecidableEq KeysetValidationMode := fun a b => Nat.decEq a b

/-- The `DataAvailabilityProvider` interface: which header bytes the
provider claims, and payload recovery from a raw batch. The Go
signature's context and preimage-recording map are elided (the parser
passes `nil` preimages and the context only carries cancellation). -/
structure DataAvailabilityProvider where
  IsValidHeaderByte : Nat → Bool
  RecoverPayloadFromBatch :
    Nat → Nat → List Nat → KeysetValidationMode → Except Err (Option (List Nat))

/-- The parsed sequencer message (`sequencerMessage` struct). -/
structure sequencerMessage where
  minTimestamp : Nat
  maxTimestamp : Nat
  minL1Block : Nat
  maxL1Block : Nat
  afterDelayedMessages : Nat
  segments : List (List Nat)
  deriving DecidableEq

/-- The header-only parsed message built at the top of
`parseSequencerMessage`: the five big-endian u64 header fields and an
empty segment list. -/
def parsedMsgHeader (data : List Nat) : sequencerMessage :=
  { minTimestamp := readU64 data 0
    maxTimestamp := readU64 data 8
    minL1Block := readU64 data 16
    maxL1Block := readU64 data 24
    afterDelayedMessages := readU64 data 32
    segments := [] }

/-- The Stage-1 provider scan: the first provider in order whose
`IsValidHeaderByte` claims the byte (a `nil` slice entry in Go is
skipped, which is the same as a provider that claims nothing). -/
def findValidProvider (providers : List DataAvailabilityProvider) (headerByte : Nat) :
    Option DataAvailabilityProvider :=
  match providers with
  | [] => none
  | p :: rest =>
    if p.IsValidHeaderByte headerByte then some p else findValidProvider rest headerByte

/-- The Stage-3 segment loop: repeatedly decode an RLP byte string,
stopping at the first decode error (EOF included) or once the segment
cap is reached. The fuel argument only bounds the recursion; every
successful decode consumes at least one input byte, so fuel
`input.length + 1` is never exhausted before the loop's own exits fire. -/
def parseSegmentsAux : Nat → List Nat → List (List Nat) → List (List Nat)
  | 0, _, segments => segments
  | fuel + 1, input, segments =>
    match decodeRlpString input with
    | Except.error _ => segments
    | Except.ok (segment, rest) =>
      if segments.length ≥ MaxSegmentsPerSequencerMessage then segments
      else parseSegmentsAux fuel rest (segments ++ [segment])

/-- Decodes the decompressed Stage-3 stream into the segment list. -/
def parseSegments (decompressed : List Nat) : List (List Nat) :=
  parseSegmentsAux (decompressed.length + 1) decompressed []

/-- Stage 3 of `parseSequencerMessage`: if the payload leads with the
brotli byte, decompress (cap `MaxDecompressedLen`) and decode segments;
a decompression failure, an unknown leading byte, or an empty payload
is logged and yields the header-only message. -/
def parseStage3 (env : ParseEnv) (parsedMsg : sequencerMessage) (payload : List Nat) :
    Except Err sequencerMessage :=
  match payload with
  | [] => Except.ok parsedMsg
  | b :: rest =>
    if env.hdr.IsBrotliMessageHeaderByte b then
      match env.Decompress rest MaxDecompressedLen with
      | Except.ok decompressed => Except.ok { parsedMsg with segments := parseSegments decompressed }
      | Except.error _ => Except.ok parsedMsg
    else Except.ok parsedMsg

/-- Stages 2 and 3 of `parseSequencerMessage`: peel an optional
zeroheavy layer (a decode error is logged and returns the header-only
message), then hand over to Stage 3. -/
def parseStage2 (env : ParseEnv) (parsedMsg : sequencerMessage) (payload : List Nat) :
    Except Err sequencerMessage :=
  match payload with
  | [] => Except.ok parsedMsg
  | b :: rest =>
    if env.hdr.IsZeroheavyEncodedHeaderByte b then
      match env.zeroheavyDecode rest with
      | Except.error _ => Except.ok parsedMsg
      | Except.ok pl => parseStage3 env parsedMsg pl
    else parseStage3 env parsedMsg (b :: rest)

/-- `parseSequencerMessage`: the staged decoder. Stage 0 parses the
40-byte header and rejects authenticated-but-unknown header bytes with
`fatalNodeOutOfDate`; Stage 1 lets the first claiming DA provider
recover the payload (`none` means a valid envelope with nothing to
decode: the header-only message is returned), logs and continues on an
unclaimed DAS byte, and errors on an unclaimed blob-hashes byte;
Stages 2 and 3 then peel zeroheavy and brotli layers. -/
def parseSequencerMessage (env : ParseEnv) (batchNum : Nat) (batchBlockHash : Nat)
    (data : List Nat) (daProviders : List DataAvailabilityProvider)
    (keysetValidationMode : KeysetValidationMode) : Except Err sequencerMessage :=
  if data.length < 40 then Except.error Err.missingHeader
  else
    let parsedMsg := parsedMsgHeader data
    match data.drop 40 with
    | [] => Except.ok parsedMsg
    | b0 :: rest =>
      if env.hdr.IsL1AuthenticatedMessageHeaderByte b0 ∧ ¬ env.hdr.IsKnownHeaderByte b0 then
        Except.error (Err.fatalNodeOutOfDate b0)
      else
        match findValidProvider daProviders b0 with
        | some p =>
          match p.RecoverPayloadFromBatch batchNum batchBlockHash data keysetValidationMode with
          | Except.error e => Except.error e
          | Except.ok none => Except.ok parsedMsg
          | Except.ok (some newPayload) => parseStage2 env parsedMsg newPayload
        | none =>
          if env.hdr.IsDASMessageHeaderByte b0 then
            parseStage2 env parsedMsg (b0 :: rest)
          else if env.hdr.IsBlobHashesHeaderByte b0 then
            Except.error Err.blobReaderUnconfigured
          else
            parseStage2 env parsedMsg (b0 :: rest)

/-- The DAS certificate (`DataAvailabilityCertificate`), as consumed by
`RecoverPayloadFromDasBatch`. -/
structure DataAvailabilityCertificate where
  KeysetHash : Nat
  DataHash : Nat
  Timeout : Nat
  Version : Nat
  SignersMask : Nat
  Sig : List Nat

/-- A deserialized keyset: all `RecoverPayloadFromDasBatch` uses of it go
through `VerifySignature(signersMask, signableFields, sig)`. -/
structure Keyset where
  VerifySignature : Nat → List Nat → List Nat → Except Unit Unit

/-- The collaborators of `RecoverPayloadFromDasBatch` that live outside
the embedded sources: certificate and keyset deserialization, the
content-addressed DAS reader, and the hashing helpers. Hashes are
modelled as opaque `Nat` values. Preimage recording
(`keccakPreimages[key] = value`) is pure map bookkeeping with no effect
on control flow or on the returned payload, and is elided. -/
structure DasEnv where
  DeserializeDASCertFrom : List Nat → Except Unit DataAvailabilityCertificate
  GetByHash : Nat → Except Err (List Nat)
  FlatHashToTreeHash : Nat → Nat
  Keccak256Hash : List Nat → Nat
  TreeHash : List Nat → Nat
  SerializeSignableFields : DataAvailabilityCertificate → List Nat
  DeserializeKeyset : List Nat → Bool → Except Unit Keyset

/-- The inner `getByHash` closure of `RecoverPayloadFromDasBatch`:
version-0 hashes are remapped flat-to-tree before lookup with a
fallback to the raw hash, and the fetched preimage is integrity-checked
by re-hashing (keccak for version 0, tree hash for version 1);
a mismatch is `ErrHashMismatch`. -/
def dasGetByHash (env : DasEnv) (version : Nat) (hash : Nat) : Except Err (List Nat) :=
  let newHash := if version = 0 then env.FlatHashToTreeHash hash else hash
  let fetched :=
    match env.GetByHash newHash with
    | Except.error e => if hash ≠ newHash then env.GetByHash hash else Except.error e
    | Except.ok p => Except.ok p
  match fetched with
  | Except.error e => Except.error e
  | Except.ok preimage =>
    if (version = 0 ∧ env.Keccak256Hash preimage ≠ hash) ∨
       (version = 1 ∧ env.TreeHash preimage ≠ hash) then
      Except.error Err.hashMismatch
    else Except.ok preimage

/-- `RecoverPayloadFromDasBatch`: deserialize the certificate from
`sequencerMsg[40:]` (failure: log, return null), abstain on certificate
versions ≥ 2, fetch and record the keyset preimage (fetch errors
propagate), deserialize the keyset (failure: log — `log.Crit` under
`KeysetPanicIfInvalid` terminates the process — and return null),
verify the threshold signature (failure: log, return null), reject
certificates whose timeout is under one week past the batch's
`maxTimestamp` (u64 addition, so taken mod 2 ^ 64), then fetch the data
preimage (errors propagate) and return it. -/
def RecoverPayloadFromDasBatch (env : DasEnv) (batchNum : Nat) (sequencerMsg : List Nat)
    (keysetValidationMode : KeysetValidationMode) : Except Err (Option (List Nat)) :=
  match env.DeserializeDASCertFrom (sequencerMsg.drop 40) with
  | Except.error _ => Except.ok none
  | Except.ok cert =>
    if cert.Version ≥ 2 then Except.ok none
    else
      match dasGetByHash env cert.Version cert.KeysetHash with
      | Except.error e => Except.error e
      | Except.ok keysetPreimage =>
        match env.DeserializeKeyset keysetPreimage
            (decide (keysetValidationMode = KeysetDontValidate)) with
        | Except.error _ => Except.ok none
        | Except.ok keyset =>
          match keyset.VerifySignature cert.SignersMask
              (env.SerializeSignableFields cert) cert.Sig with
          | Except.error _ => Except.ok none
          | Except.ok _ =>
            let maxTimestamp := readU64 sequencerMsg 8
            if cert.Timeout <
                (maxTimestamp + MinLifetimeSecondsForDataAvailabilityCert) % 2 ^ 64 then
              Except.ok none
            else
              match dasGetByHash env cert.Version cert.DataHash with
              | Except.error e => Except.error e
              | Except.ok payload => Except.ok (some payload)

/-- `NewDAProviderDAS`: the built-in DAS provider claims DAS header
bytes and recovers through `RecoverPayloadFromDasBatch` (the
batch-block hash is ignored, as in `dAProviderForDAS`). -/
def NewDAProviderDAS (env : DasEnv) (hdr : headerByteClassifier) : DataAvailabilityProvider :=
  { IsValidHeaderByte := hdr.IsDASMessageHeaderByte
    RecoverPayloadFromBatch := fun batchNum _batchBlockHash sequencerMsg mode =>
      RecoverPayloadFromDasBatch env batchNum sequencerMsg mode }

/-- Modelled from the spec: `InboxBackend` is an interface (spec section 6)
whose implementations live outside the embedded sources. It is modelled
as a deterministic in-memory state: a queue of (batch bytes, batch block
hash) pairs indexed by the sequencer inbox position, the position within
the current message, and the delayed-inbox contents indexed by sequence
number. -/
structure InboxBackendState where
  batches : List (List Nat × Nat)
  sequencerInboxPosition : Nat
  positionWithinMessage : Nat
  delayedMessages : List L1IncomingMessage

/-- `PeekSequencerInbox`: non-destructive read of the current batch. -/
def InboxBackendState.PeekSequencerInbox (b : InboxBackendState) :
    Except Err (List Nat × Nat) :=
  match b.batches[b.sequencerInboxPosition]? with
  | some x => Except.ok x
  | none => Except.error Err.backendPeek

/-- `GetSequencerInboxPosition`. -/
def InboxBackendState.GetSequencerInboxPosition (b : InboxBackendState) : Nat :=
  b.sequencerInboxPosition

/-- `GetPositionWithinMessage`. -/
def InboxBackendState.GetPositionWithinMessage (b : InboxBackendState) : Nat :=
  b.positionWithinMessage

/-- `ReadDelayedInbox(seqNum)`: the stored delayed message, or an error
past the end of the stored inbox. -/
def InboxBackendState.ReadDelayedInbox (b : InboxBackendState) (seqNum : Nat) :
    Except Err L1IncomingMessage :=
  match b.delayedMessages[seqNum]? with
  | some m => Except.ok m
  | none => Except.error (Err.readDelayedInbox seqNum)

/-- The `inboxMultiplexer` struct. The Go struct's `backend` field is
threaded explicitly next to the multiplexer instead of being stored in
it. -/
structure inboxMultiplexer where
  delayedMessagesRead : Nat
  daProviders : List DataAvailabilityProvider
  cachedSequencerMessage : Option sequencerMessage
  cachedSequencerMessageNum : Nat
  cachedSegmentNum : Nat
  cachedSegmentTimestamp : Nat
  cachedSegmentBlockNumber : Nat
  cachedSubMessageNumber : Nat
  keysetValidationMode : KeysetValidationMode

/-- `NewInboxMultiplexer`: a fresh multiplexer with the remaining fields
at their zero values. -/
def NewInboxMultiplexer (delayedMessagesRead : Nat)
    (daProviders : List DataAvailabilityProvider)
    (keysetValidationMode : KeysetValidationMode) : inboxMultiplexer :=
  { delayedMessagesRead := delayedMessagesRead
    daProviders := daProviders
    cachedSequencerMessage := none
    cachedSequencerMessageNum := 0
    cachedSegmentNum := 0
    cachedSegmentTimestamp := 0
    cachedSegmentBlockNumber := 0
    cachedSubMessageNumber := 0
    keysetValidationMode := keysetValidationMode }

def BatchSegmentKindL2Message : Nat := 0

def BatchSegmentKindL2MessageBrotli : Nat := 1

def BatchSegmentKindDelayedMessages : Nat := 2

def BatchSegmentKindAdvanceTimestamp : Nat := 3

def BatchSegmentKindAdvanceL1BlockNumber : Nat := 4

/-- `advanceSequencerMsg`: set `delayedMessagesRead` to the cached
batch's `afterDelayedMessages` (the cached message is non-nil at every
call site), reset the position within the message, advance the backend
to the next batch, and clear the cache and cursors. -/
def advanceSequencerMsg (r : inboxMultiplexer) (backend : InboxBackendState) :
    inboxMultiplexer × InboxBackendState :=
  let r :=
    match r.cachedSequencerMessage with
    | some m => { r with delayedMessagesRead := m.afterDelayedMessages }
    | none => r
  let backend := { backend with
    positionWithinMessage := 0
    sequencerInboxPosition := backend.sequencerInboxPosition + 1 }
  ({ r with cachedSequencerMessage := none, cachedSegmentNum := 0,
            cachedSegmentTimestamp := 0, cachedSegmentBlockNumber := 0,
            cachedSubMessageNumber := 0 }, backend)

/-- `advanceSubMsg`: bump the backend's position within the current
message (u64 arithmetic). -/
def advanceSubMsg (backend : InboxBackendState) : InboxBackendState :=
  { backend with positionWithinMessage := (backend.positionWithinMessage + 1) % 2 ^ 64 }

/-- The scan body of `IsCachedSegementLast`: the Go loop walks indices
`cachedSegmentNum + 1` to the end, which is the same traversal as this
structural recursion over the dropped suffix. Empty segments and
segment kinds other than L2Message, L2MessageBrotli and DelayedMessages
are skipped. -/
def noMoreRealSegments : List (List Nat) → Bool
  | [] => true
  | [] :: rest => noMoreRealSegments rest
  | (kind :: _) :: rest =>
    if kind = BatchSegmentKindL2Message ∨ kind = BatchSegmentKindL2MessageBrotli then false
    else if kind = BatchSegmentKindDelayedMessages then false
    else noMoreRealSegments rest

/-- `IsCachedSegementLast` (the Go method reads the cached sequencer
message, which is non-nil at every call site; it is passed explicitly). -/
def IsCachedSegementLast (r : inboxMultiplexer) (seqMsg : sequencerMessage) : Bool :=
  if r.delayedMessagesRead < seqMsg.afterDelayedMessages then false
  else noMoreRealSegments (seqMsg.segments.drop (r.cachedSegmentNum + 1))

/-- The segment walk at the top of `getNextMsg`: starting from the
cached cursor state, skip empty segments, apply advance directives
(u64 additions; a malformed directive is logged and skipped), and step
past real segments while the sub-message counter is below the target.
The fuel argument only bounds the recursion: every iteration increments
`segmentNum`, and the loop exits on its own once `segmentNum` reaches
the segment count, so fuel `segments.length + 1` is never exhausted
first. -/
def walkSegments (seqMsg : sequencerMessage) (targetSubMessage : Nat) :
    Nat → Nat → Nat → Nat → Nat → Nat × Nat × Nat × Nat
  | 0, segmentNum, timestamp, blockNumber, submessageNumber =>
    (segmentNum, timestamp, blockNumber, submessageNumber)
  | fuel + 1, segmentNum, timestamp, blockNumber, submessageNumber =>
    match seqMsg.segments[segmentNum]? with
    | none => (segmentNum, timestamp, blockNumber, submessageNumber)
    | some [] =>
      walkSegments seqMsg targetSubMessage fuel (segmentNum + 1)
        timestamp blockNumber submessageNumber
    | some (segmentKind :: segBody) =>
      if segmentKind = BatchSegmentKindAdvanceTimestamp ∨
         segmentKind = BatchSegmentKindAdvanceL1BlockNumber then
        match decodeRlpUint64 segBody with
        | Except.error _ =>
          walkSegments seqMsg targetSubMessage fuel (segmentNum + 1)
            timestamp blockNumber submessageNumber
        | Except.ok advancing =>
          if segmentKind = BatchSegmentKindAdvanceTimestamp then
            walkSegments seqMsg targetSubMessage fuel (segmentNum + 1)
              ((timestamp + advancing) % 2 ^ 64) blockNumber submessageNumber
          else
            walkSegments seqMsg targetSubMessage fuel (segmentNum + 1)
              timestamp ((blockNumber + advancing) % 2 ^ 64) submessageNumber
      else if submessageNumber < targetSubMessage then
        walkSegments seqMsg targetSubMessage fuel (segmentNum + 1)
          timestamp blockNumber (submessageNumber + 1)
      else (segmentNum, timestamp, blockNumber, submessageNumber)

/-- `getNextMsg`: walk the segments to the target sub-message, store the
(unclamped) cursor state back into the multiplexer, clamp the running
timestamp and block number into the batch header's windows for the
emitted message only, select the segment (a virtual `DelayedMessages`
segment past the end of the batch), and emit according to its kind.
Parse failures (empty segment, failed brotli sub-message, unknown kind)
return `(none, none, _)`; a `ReadDelayedInbox` failure is a hard error. -/
def getNextMsg (env : ParseEnv) (seqMsg : sequencerMessage) (r : inboxMultiplexer)
    (backend : InboxBackendState) :
    Option MessageWithMetadata × Option Err × inboxMultiplexer :=
  let targetSubMessage := backend.GetPositionWithinMessage
  match walkSegments seqMsg targetSubMessage (seqMsg.segments.length + 1)
      r.cachedSegmentNum r.cachedSegmentTimestamp r.cachedSegmentBlockNumber
      r.cachedSubMessageNumber with
  | (segmentNum, timestamp0, blockNumber0, submessageNumber) =>
    let r := { r with cachedSegmentNum := segmentNum, cachedSegmentTimestamp := timestamp0,
                      cachedSegmentBlockNumber := blockNumber0,
                      cachedSubMessageNumber := submessageNumber }
    let timestamp :=
      if timestamp0 < seqMsg.minTimestamp then seqMsg.minTimestamp
      else if seqMsg.maxTimestamp < timestamp0 then seqMsg.maxTimestamp
      else timestamp0
    let blockNumber :=
      if blockNumber0 < seqMsg.minL1Block then seqMsg.minL1Block
      else if seqMsg.maxL1Block < blockNumber0 then seqMsg.maxL1Block
      else blockNumber0
    match (seqMsg.segments[segmentNum]?).getD [BatchSegmentKindDelayedMessages] with
    | [] => (none, none, r)
    | kind :: segBody =>
      if kind = BatchSegmentKindL2Message ∨ kind = BatchSegmentKindL2MessageBrotli then
        match (if kind = BatchSegmentKindL2MessageBrotli then
                 env.Decompress segBody MaxL2MessageSize
               else Except.ok segBody) with
        | Except.error _ => (none, none, r)
        | Except.ok l2msg =>
          (some { message := { header := { kind := L1MessageType_L2Message,
                                           poster := BatchPosterAddress,
                                           blockNumber := blockNumber,
                                           timestamp := timestamp,
                                           requestId := none, l1BaseFee := 0 },
                               l2msg := l2msg },
                  delayedMessagesRead := r.delayedMessagesRead }, none, r)
      else if kind = BatchSegmentKindDelayedMessages then
        if seqMsg.afterDelayedMessages ≤ r.delayedMessagesRead then
          (some { message := InvalidL1Message,
                  delayedMessagesRead := seqMsg.afterDelayedMessages }, none, r)
        else
          match backend.ReadDelayedInbox r.delayedMessagesRead with
          | Except.error e => (none, some e, r)
          | Except.ok delayed =>
            let r := { r with delayedMessagesRead := (r.delayedMessagesRead + 1) % 2 ^ 64 }
            (some { message := delayed, delayedMessagesRead := r.delayedMessagesRead },
             none, r)
      else (none, none, r)

/-- The tail of `Pop` once a cached sequencer message is available:
fetch the next message, advance even if there was an error (the batch
if the cached segment is last, the sub-message position otherwise), and
convert a `(nil, nil)` parsing result into the canonical invalid
message carrying the post-advance `delayedMessagesRead`. -/
def popTail (env : ParseEnv) (seqMsg : sequencerMessage) (r : inboxMultiplexer)
    (backend : InboxBackendState) :
    Option MessageWithMetadata × Option Err × inboxMultiplexer × InboxBackendState :=
  match getNextMsg env seqMsg r backend with
  | (msg, err, r1) =>
    let advanced :=
      if IsCachedSegementLast r1 seqMsg then advanceSequencerMsg r1 backend
      else (r1, advanceSubMsg backend)
    match msg, err with
    | none, none =>
      (some { message := InvalidL1Message,
              delayedMessagesRead := advanced.1.delayedMessagesRead },
       none, advanced.1, advanced.2)
    | _, _ => (msg, err, advanced.1, advanced.2)

/-- `Pop`: fill the cache if needed (peek errors and parse errors are
returned to the caller with no advance; the Go code records the
sequencer inbox position in `cachedSequencerMessageNum` before parsing),
then emit and advance through `popTail`. -/
def Pop (env : ParseEnv) (r : inboxMultiplexer) (backend : InboxBackendState) :
    Option MessageWithMetadata × Option Err × inboxMultiplexer × InboxBackendState :=
  match r.cachedSequencerMessage with
  | some seqMsg => popTail env seqMsg r backend
  | none =>
    match backend.PeekSequencerInbox with
    | Except.error e => (none, some e, r, backend)
    | Except.ok (bytes, batchBlockHash) =>
      let r1 := { r with cachedSequencerMessageNum := backend.GetSequencerInboxPosition }
      match parseSequencerMessage env backend.GetSequencerInboxPosition batchBlockHash bytes
          r.daProviders r.keysetValidationMode with
      | Except.error e => (none, some e, r1, backend)
      | Except.ok seqMsg =>
        popTail env seqMsg { r1 with cachedSequencerMessage := some seqMsg } backend

/-- `DelayedMessagesRead`. -/
def DelayedMessagesRead (r : inboxMultiplexer) : Nat :=
  r.delayedMessagesRead

/-- The observable outputs of `n` successive `Pop` calls, threading the
multiplexer and backend states. -/
def popSequence (env : ParseEnv) (r : inboxMultiplexer) (backend : InboxBackendState) :
    Nat → List (Option MessageWithMetadata × Option Err)
  | 0 => []
  | n + 1 =>
    match Pop env r backend with
    | (msg, err, r1, b1) => (msg, err) :: popSequence env r1 b1 n

/-- The multiplexer's observable state in the sense of the error-handling
claims: `delayedMessagesRead`, the cached batch, the segment and
sub-message cursors (including the running timestamp and block number),
and the backend's positions. -/
structure ObservableState where
  delayedMessagesRead : Nat
  cachedSequencerMessage : Option sequencerMessage
  cachedSegmentNum : Nat
  cachedSegmentTimestamp : Nat
  cachedSegmentBlockNumber : Nat
  cachedSubMessageNumber : Nat
  sequencerInboxPosition : Nat
  positionWithinMessage : Nat
  deriving DecidableEq

/-- Projects a multiplexer-and-backend pair onto its observable state. -/
def observableState (r : inboxMultiplexer) (b : InboxBackendState) : ObservableState :=
  { delayedMessagesRead := r.delayedMessagesRead
    cachedSequencerMessage := r.cachedSequencerMessage
    cachedSegmentNum := r.cachedSegmentNum
    cachedSegmentTimestamp := r.cachedSegmentTimestamp
    cachedSegmentBlockNumber := r.cachedSegmentBlockNumber
    cachedSubMessageNumber := r.cachedSubMessageNumber
    sequencerInboxPosition := b.sequencerInboxPosition
    positionWithinMessage := b.positionWithinMessage }

/-- Decidable equality for `Except` results, used to evaluate the
embedding on closed inputs. -/
instance instDecEqExcept {e a : Type} [DecidableEq e] [DecidableEq a] :
    DecidableEq (Except e a) := fun x y =>
  match x, y with
  | Except.ok u, Except.ok v =>
    if h : u = v then isTrue (by rw [h]) else isFalse (by intro hh; cases hh; exact h rfl)
  | Except.error u, Except.error v =>
    if h : u = v then isTrue (by rw [h]) else isFalse (by intro hh; cases hh; exact h rfl)
  | Except.ok _, Except.error _ => isFalse (by intro hh; cases hh)
  | Except.error _, Except.ok _ => isFalse (by intro hh; cases hh)

/-- Whether every bit of `bits` is set in `checking` (the classifier's
`hasBits` helper). -/
def hasBits (checking bits : Nat) : Bool := checking &&& bits = bits

/-- Modelled from the spec: the concrete header-byte classifier
(`HeaderByteClassifier` in spec section 4.1) lives outside the embedded
sources. This instance realises it with the flag layout the spec's
dispatch structure implies: DAS certificates carry the 0x80 flag,
blob-hash batches the 0x50 pattern, zeroheavy the 0x20 flag, brotli is
the zero byte, L1 authentication is the 0x40 flag, and the known set is
exactly brotli, DAS, blob-hashes and zeroheavy. -/
def specHeaderByteClassifier : headerByteClassifier :=
  { IsDASMessageHeaderByte := fun b => hasBits b 0x80
    IsBlobHashesHeaderByte := fun b => hasBits b 0x50
    IsZeroheavyEncodedHeaderByte := fun b => hasBits b 0x20
    IsBrotliMessageHeaderByte := fun b => b = 0
    IsL1AuthenticatedMessageHeaderByte := fun b => hasBits b 0x40
    IsKnownHeaderByte := fun b =>
      b = 0 || hasBits b 0x80 || hasBits b 0x50 || hasBits b 0x20 }

/-- A concrete parse environment for running the embedding on closed
inputs. The external decoders are stubbed to fail; no closed run below
reaches them. -/
def specParseEnv : ParseEnv :=
  { hdr := specHeaderByteClassifier
    zeroheavyDecode := fun _ => Except.error ()
    Decompress := fun _ _ => Except.error () }

/-- A 40-byte all-zero batch header (all five header u64 fields zero). -/
def zeroHeader40 : List Nat := List.replicate 40 0

/-- The scenario batch of claim C4: window `minT = 0, maxT = 100,
minL1 = 10, maxL1 = 100`, no delayed messages promised, segments
`[[0x03, RLP(5)], [0x04, RLP(2)], [0x00, 'x']]` ('x' = 0x78). -/
def c4Batch : sequencerMessage :=
  { minTimestamp := 0, maxTimestamp := 100, minL1Block := 10, maxL1Block := 100,
    afterDelayedMessages := 0,
    segments := [[3, 5], [4, 2], [0, 0x78]] }

/-- A multiplexer holding a given cached batch with all cursors at their
initial values and no DA providers. -/
def muxWithBatch (delayedMessagesRead : Nat) (m : sequencerMessage) : inboxMultiplexer :=
  { NewInboxMultiplexer delayedMessagesRead [] KeysetValidate with
    cachedSequencerMessage := some m }

/-- An empty backend: no batches queued, no delayed messages stored,
both positions zero. -/
def emptyBackend : InboxBackendState :=
  { batches := [], sequencerInboxPosition := 0, positionWithinMessage := 0,
    delayedMessages := [] }

/-- The scenario batch used for the C3 and C9 counterexamples with
`afterDelayedMessages = 1`: no segments, so the virtual delayed tail is
reached immediately. -/
def c3Batch : sequencerMessage :=
  { minTimestamp := 0, maxTimestamp := 0, minL1Block := 0, maxL1Block := 0,
    afterDelayedMessages := 1, segments := [] }

/-- An empty batch promising fewer delayed messages (3) than a
multiplexer that has already read 5 of them. -/
def c9Batch : sequencerMessage :=
  { minTimestamp := 0, maxTimestamp := 0, minL1Block := 0, maxL1Block := 0,
    afterDelayedMessages := 3, segments := [] }

/-- C1: for a fixed parse environment, DA-provider set and
keyset-validation mode, the sequence of results of successive `Pop`
calls on a fresh multiplexer is a pure function of the backend state:
two runs over equal backend states produce identical message sequences. -/
theorem c1_pop_sequence_deterministic (env : ParseEnv) (d : Nat)
    (daProviders : List DataAvailabilityProvider) (mode : KeysetValidationMode)
    (b1 b2 : InboxBackendState) (n : Nat) (h : b1 = b2) :
    popSequence env (NewInboxMultiplexer d daProviders mode) b1 n =
      popSequence env (NewInboxMultiplexer d daProviders mode) b2 n := by
  subst h
  rfl

theorem c1_pop_sequence_deterministic_witness :
    emptyBackend = emptyBackend ∧
      popSequence specParseEnv (NewInboxMultiplexer 0 [] KeysetValidate) emptyBackend 2 =
        popSequence specParseEnv (NewInboxMultiplexer 0 [] KeysetValidate) emptyBackend 2 :=
  ⟨rfl, c1_pop_sequence_deterministic specParseEnv 0 [] KeysetValidate
    emptyBackend emptyBackend 2 rfl⟩

/-- C4 counterexample: on the scenario batch with `minL1 = 10` and
advance directives adding 5 to the timestamp and 2 to the block number,
the first `Pop` does not emit block number 12 (the running block starts
at 0, and 0 + 2 = 2 is clamped up to `minL1 = 10`). -/
theorem c4_counterexample_block_number_not_12 :
    (Pop specParseEnv (muxWithBatch 0 c4Batch) emptyBackend).1.map
        (fun m => m.message.header.blockNumber) ≠ some 12 := by
  decide

/-- C4 amended: on the scenario batch the first `Pop` emits the L2
message body 'x' with timestamp 5 (0 + 5, inside the window) and block
number 10 (0 + 2 clamped up to `minL1 = 10`). -/
theorem c4_advance_directives_emit_ts5_block10 :
    (Pop specParseEnv (muxWithBatch 0 c4Batch) emptyBackend).1.map
        (fun m => (m.message.header.timestamp, m.message.header.blockNumber,
                   m.message.l2msg)) =
      some (5, 10, [0x78]) := by
  decide

/-- C5 counterexample: a batch whose payload leads with the blob-hashes
header byte but with no configured provider claiming it makes
`parseSequencerMessage` return a caller-visible error instead of
logging and continuing. -/
theorem c5_counterexample_blob_byte_errors :
    parseSequencerMessage specParseEnv 0 0 (zeroHeader40 ++ [0x50]) []
        KeysetValidate =
      Except.error Err.blobReaderUnconfigured := by
  decide

/-- C7: a nonempty payload whose first byte is L1-authenticated but not
in the known header-byte set makes `parseSequencerMessage` fail with
the fatal-node-out-of-date error and produce no parsed batch. -/
theorem c7_authenticated_unknown_byte_fatal (env : ParseEnv)
    (batchNum batchBlockHash : Nat) (data : List Nat)
    (daProviders : List DataAvailabilityProvider) (mode : KeysetValidationMode)
    (b0 : Nat) (rest : List Nat)
    (hlen : 40 ≤ data.length) (hdrop : data.drop 40 = b0 :: rest)
    (hauth : env.hdr.IsL1AuthenticatedMessageHeaderByte b0 = true)
    (hunk : env.hdr.IsKnownHeaderByte b0 = false) :
    parseSequencerMessage env batchNum batchBlockHash data daProviders mode =
      Except.error (Err.fatalNodeOutOfDate b0) := by
  unfold parseSequencerMessage
  rw [if_neg (by omega), hdrop]
  simp [hauth, hunk]

theorem c7_authenticated_unknown_byte_fatal_witness :
    40 ≤ (zeroHeader40 ++ [0x40]).length ∧
      parseSequencerMessage specParseEnv 0 0 (zeroHeader40 ++ [0x40]) []
          KeysetValidate =
        Except.error (Err.fatalNodeOutOfDate 0x40) :=
  ⟨by decide,
   c7_authenticated_unknown_byte_fatal specParseEnv 0 0 (zeroHeader40 ++ [0x40]) []
     KeysetValidate 0x40 [] (by decide) (by decide) (by decide) (by decide)⟩

/-- C9 counterexample: a successful `Pop` over an empty cached batch
promising `afterDelayedMessages = 3` drops `DelayedMessagesRead()` from
5 to 3 on batch advance. -/
theorem c9_counterexample_delayed_read_decreases :
    (Pop specParseEnv (muxWithBatch 5 c9Batch) emptyBackend).2.1 = none ∧
      DelayedMessagesRead (Pop specParseEnv (muxWithBatch 5 c9Batch) emptyBackend).2.2.1 <
        DelayedMessagesRead (muxWithBatch 5 c9Batch) := by
  decide

/-- C3 counterexample: a `ReadDelayedInbox` failure during message
emission is returned as a hard error by `Pop`, yet the multiplexer
still advances (the backend's position within the message changes), so
the observable state is not unchanged. -/
theorem c3_counterexample_read_delayed_error_advances :
    (Pop specParseEnv (muxWithBatch 0 c3Batch) emptyBackend).2.1 =
        some (Err.readDelayedInbox 0) ∧
      observableState (Pop specParseEnv (muxWithBatch 0 c3Batch) emptyBackend).2.2.1
          (Pop specParseEnv (muxWithBatch 0 c3Batch) emptyBackend).2.2.2 ≠
        observableState (muxWithBatch 0 c3Batch) emptyBackend := by
  decide

/-- C5 amended: when no configured provider claims the payload's first
byte and that byte is a DAS header byte, `parseSequencerMessage` logs
and continues with the original payload without returning an error;
since the DAS byte matches neither the zeroheavy nor the brotli layer,
the result is the header-only batch with zero segments (which
downstream interpretation turns into invalid messages). The blob-hashes
half of the original claim fails: see the counterexample. -/
theorem c5_unclaimed_das_byte_soft_continue (env : ParseEnv)
    (batchNum batchBlockHash : Nat) (data : List Nat)
    (daProviders : List DataAvailabilityProvider) (mode : KeysetValidationMode)
    (b0 : Nat) (rest : List Nat)
    (hlen : 40 ≤ data.length) (hdrop : data.drop 40 = b0 :: rest)
    (hknown : env.hdr.IsKnownHeaderByte b0 = true)
    (hnoclaim : findValidProvider daProviders b0 = none)
    (hdas : env.hdr.IsDASMessageHeaderByte b0 = true)
    (hnz : env.hdr.IsZeroheavyEncodedHeaderByte b0 = false)
    (hnb : env.hdr.IsBrotliMessageHeaderByte b0 = false) :
    parseSequencerMessage env batchNum batchBlockHash data daProviders mode =
      Except.ok (parsedMsgHeader data) := by
  unfold parseSequencerMessage
  rw [if_neg (by omega), hdrop]
  simp only [hknown, hnoclaim, hdas, hnz, hnb, Bool.false_eq_true, not_true,
    and_false, if_false, if_true, ite_false, ite_true]
  simp [parseStage2, parseStage3, hnz, hnb]

theorem c5_unclaimed_das_byte_soft_continue_witness :
    40 ≤ (zeroHeader40 ++ [0x80]).length ∧
      parseSequencerMessage specParseEnv 0 0 (zeroHeader40 ++ [0x80]) []
          KeysetValidate =
        Except.ok (parsedMsgHeader (zeroHeader40 ++ [0x80])) :=
  ⟨by decide,
   c5_unclaimed_das_byte_soft_continue specParseEnv 0 0 (zeroHeader40 ++ [0x80]) []
     KeysetValidate 0x80 [] (by decide) (by decide) (by decide) rfl (by decide)
     (by decide) (by decide)⟩

/-- The spec's notion of a segment that extends the batch: non-empty
with leading byte L2Message (0), L2MessageBrotli (1) or
DelayedMessages (2). -/
def segmentExtendsBatch (segment : List Nat) : Prop :=
  ∃ kind rest, segment = kind :: rest ∧
    (kind = BatchSegmentKindL2Message ∨ kind = BatchSegmentKindL2MessageBrotli ∨
     kind = BatchSegmentKindDelayedMessages)

/-- The scan helper returns true exactly when no scanned segment
extends the batch. -/
theorem noMoreRealSegments_iff (l : List (List Nat)) :
    noMoreRealSegments l = true ↔
      ∀ (j : Nat) (seg : List Nat), l[j]? = some seg → ¬ segmentExtendsBatch seg := by
  induction l with
  | nil =>
    constructor
    · intro _ j seg hj
      rw [List.getElem?_nil] at hj
      cases hj
    · intro _
      rfl
  | cons s rest ih =>
    match s with
    | [] =>
      rw [show noMoreRealSegments ([] :: rest) = noMoreRealSegments rest from rfl, ih]
      constructor
      · intro h j seg hj
        match j with
        | 0 =>
          simp only [List.getElem?_cons_zero, Option.some_inj] at hj
          subst hj
          rintro ⟨k, r, hkr, _⟩
          cases hkr
        | j + 1 =>
          simp only [List.getElem?_cons_succ] at hj
          exact h j seg hj
      · intro h j seg hj
        exact h (j + 1) seg (by simpa using hj)
    | kind :: body =>
      by_cases hk : kind = BatchSegmentKindL2Message ∨ kind = BatchSegmentKindL2MessageBrotli ∨
          kind = BatchSegmentKindDelayedMessages
      · have hfalse : noMoreRealSegments ((kind :: body) :: rest) = false := by
          unfold noMoreRealSegments
          rcases hk with h | h | h <;> simp [h, BatchSegmentKindL2Message,
            BatchSegmentKindL2MessageBrotli, BatchSegmentKindDelayedMessages]
        rw [hfalse]
        simp only [Bool.false_eq_true, false_iff, not_forall]
        push_neg
        exact ⟨0, kind :: body, by simp, kind, body, rfl, hk⟩
      · push_neg at hk
        obtain ⟨h0, h1, h2⟩ := hk
        have hstep : noMoreRealSegments ((kind :: body) :: rest) = noMoreRealSegments rest := by
          simp only [noMoreRealSegments]
          simp [h0, h1, h2]
        rw [hstep, ih]
        constructor
        · intro h j seg hj
          match j with
          | 0 =>
            simp only [List.getElem?_cons_zero, Option.some_inj] at hj
            subst hj
            rintro ⟨k, r, hkr, hin⟩
            cases hkr
            rcases hin with h' | h' | h'
            · exact h0 h'
            · exact h1 h'
            · exact h2 h'
          | j + 1 =>
            simp only [List.getElem?_cons_succ] at hj
            exact h j seg hj
        · intro h j seg hj
          exact h (j + 1) seg (by simpa using hj)

/-- C2: `IsCachedSegementLast` returns true exactly when
`delayedMessagesRead` has reached `afterDelayedMessages` and no segment
at index `cachedSegmentNum + 1` or later is non-empty with leading byte
L2Message, L2MessageBrotli or DelayedMessages; empty segments and
advance directives never make it return false. -/
theorem c2_is_cached_segment_last_iff (r : inboxMultiplexer) (seqMsg : sequencerMessage) :
    IsCachedSegementLast r seqMsg = true ↔
      (seqMsg.afterDelayedMessages ≤ r.delayedMessagesRead ∧
       ∀ (i : Nat) (seg : List Nat), r.cachedSegmentNum + 1 ≤ i →
         seqMsg.segments[i]? = some seg → ¬ segmentExtendsBatch seg) := by
  unfold IsCachedSegementLast
  by_cases hd : r.delayedMessagesRead < seqMsg.afterDelayedMessages
  · rw [if_pos hd]
    simp only [Bool.false_eq_true, false_iff, not_and]
    intro hle
    omega
  · rw [if_neg hd, noMoreRealSegments_iff]
    constructor
    · intro h
      refine ⟨by omega, ?_⟩
      intro i seg hi hseg
      refine h (i - (r.cachedSegmentNum + 1)) seg ?_
      rw [List.getElem?_drop]
      rw [show r.cachedSegmentNum + 1 + (i - (r.cachedSegmentNum + 1)) = i from by omega]
      exact hseg
    · rintro ⟨-, h⟩ j seg hj
      rw [List.getElem?_drop] at hj
      exact h _ seg (by omega) hj

/-- Once a cached message is available, a nil-error result of the tail of
`Pop` always carries a message: the `(nil, nil)` parsing outcome of
`getNextMsg` is patched into the canonical invalid message. -/
theorem popTail_nil_error_message_isSome (env : ParseEnv) (m : sequencerMessage)
    (r : inboxMultiplexer) (b : InboxBackendState)
    (h : (popTail env m r b).2.1 = none) :
    ((popTail env m r b).1).isSome = true := by
  rcases hg : getNextMsg env m r b with ⟨msg, err, r1⟩
  rcases msg with _ | m'
  · rcases err with _ | e
    · simp [popTail, hg]
    · exfalso
      simp [popTail, hg] at h
  · simp [popTail, hg]

/-- C10: whenever `Pop` returns a nil error, the returned message is
non-nil — soft parse failures are converted into the canonical invalid
message rather than a `(nil, nil)` result. -/
theorem c10_pop_nil_error_message_nonnil (env : ParseEnv) (r : inboxMultiplexer)
    (b : InboxBackendState) (h : (Pop env r b).2.1 = none) :
    ((Pop env r b).1).isSome = true := by
  rcases hc : r.cachedSequencerMessage with _ | m
  · rcases hp : b.PeekSequencerInbox with e | ⟨bytes, bbh⟩
    · exfalso
      simp [Pop, hc, hp] at h
    · rcases hpar : parseSequencerMessage env b.GetSequencerInboxPosition bbh bytes
          r.daProviders r.keysetValidationMode with e | m2
      · exfalso
        simp [Pop, hc, hp, hpar] at h
      · have hh : (popTail env m2
            { r with cachedSequencerMessageNum := b.GetSequencerInboxPosition,
                     cachedSequencerMessage := some m2 } b).2.1 = none := by
          simpa [Pop, hc, hp, hpar] using h
        have := popTail_nil_error_message_isSome env m2
          { r with cachedSequencerMessageNum := b.GetSequencerInboxPosition,
                   cachedSequencerMessage := some m2 } b hh
        simpa [Pop, hc, hp, hpar] using this
  · have hh : (popTail env m r b).2.1 = none := by
      simpa [Pop, hc] using h
    have := popTail_nil_error_message_isSome env m r b hh
    simpa [Pop, hc] using this

theorem c10_pop_nil_error_message_nonnil_witness :
    (Pop specParseEnv (muxWithBatch 5 c9Batch) emptyBackend).2.1 = none ∧
      ((Pop specParseEnv (muxWithBatch 5 c9Batch) emptyBackend).1).isSome = true :=
  ⟨by decide,
   c10_pop_nil_error_message_nonnil specParseEnv (muxWithBatch 5 c9Batch) emptyBackend
     (by decide)⟩

/-- C3 amended: hard errors raised while filling the cache — a backend
peek failure or any `parseSequencerMessage` error (missing header,
fatal-node-out-of-date, hash mismatch, provider errors) — are returned
with the observable state unchanged. (A `ReadDelayedInbox` failure
during emission still advances the cursor; see the counterexample.) -/
theorem c3_parse_stage_errors_leave_state_unchanged (env : ParseEnv)
    (r : inboxMultiplexer) (b : InboxBackendState) (e : Err)
    (hc : r.cachedSequencerMessage = none)
    (he : b.PeekSequencerInbox = Except.error e ∨
          ∃ bytes bbh, b.PeekSequencerInbox = Except.ok (bytes, bbh) ∧
            parseSequencerMessage env b.GetSequencerInboxPosition bbh bytes
              r.daProviders r.keysetValidationMode = Except.error e) :
    ∃ r2, Pop env r b = (none, some e, r2, b) ∧
      observableState r2 b = observableState r b := by
  rcases he with hpe | ⟨bytes, bbh, hok, hparse⟩
  · refine ⟨r, ?_, rfl⟩
    simp [Pop, hc, hpe]
  · refine ⟨{ r with cachedSequencerMessageNum := b.GetSequencerInboxPosition }, ?_, rfl⟩
    simp [Pop, hc, hok, hparse]

theorem c3_parse_stage_errors_leave_state_unchanged_witness :
    ∃ r2, Pop specParseEnv (NewInboxMultiplexer 0 [] KeysetValidate) emptyBackend =
        (none, some Err.backendPeek, r2, emptyBackend) ∧
      observableState r2 emptyBackend =
        observableState (NewInboxMultiplexer 0 [] KeysetValidate) emptyBackend :=
  c3_parse_stage_errors_leave_state_unchanged specParseEnv
    (NewInboxMultiplexer 0 [] KeysetValidate) emptyBackend Err.backendPeek rfl
    (Or.inl rfl)

/-- The clamp used at emission lands inside the window when the window
is non-degenerate. -/
theorem clamp_bounds (lo hi x : Nat) (h : lo ≤ hi) :
    lo ≤ (if x < lo then lo else if hi < x then hi else x) ∧
      (if x < lo then lo else if hi < x then hi else x) ≤ hi := by
  split
  · omega
  · split <;> omega

/-- C6: whenever `getNextMsg` emits through the L2-message path (the
selected segment leads with L2Message, or with L2MessageBrotli and the
body decompresses), the emitted timestamp and block number are the
clamps of the running values into the batch header's windows — hence
inside them when the windows are non-degenerate — while the stored
running values `cachedSegmentTimestamp` and `cachedSegmentBlockNumber`
keep the unclamped walk results. -/
theorem c6_emitted_l2_clamped_running_unclamped (env : ParseEnv)
    (seqMsg : sequencerMessage) (r : inboxMultiplexer) (b : InboxBackendState)
    (sn ts bn sub : Nat) (kind : Nat) (body : List Nat)
    (hw : walkSegments seqMsg b.GetPositionWithinMessage (seqMsg.segments.length + 1)
        r.cachedSegmentNum r.cachedSegmentTimestamp r.cachedSegmentBlockNumber
        r.cachedSubMessageNumber = (sn, ts, bn, sub))
    (hmm : seqMsg.minTimestamp ≤ seqMsg.maxTimestamp)
    (hbb : seqMsg.minL1Block ≤ seqMsg.maxL1Block)
    (hseg : (seqMsg.segments[sn]?).getD [BatchSegmentKindDelayedMessages] = kind :: body)
    (hkind : kind = BatchSegmentKindL2Message ∨ kind = BatchSegmentKindL2MessageBrotli)
    (hdec : kind = BatchSegmentKindL2MessageBrotli →
      ∃ d, env.Decompress body MaxL2MessageSize = Except.ok d) :
    ∃ msg r1, getNextMsg env seqMsg r b = (some msg, none, r1) ∧
      r1.cachedSegmentTimestamp = ts ∧ r1.cachedSegmentBlockNumber = bn ∧
      msg.message.header.timestamp =
        (if ts < seqMsg.minTimestamp then seqMsg.minTimestamp
         else if seqMsg.maxTimestamp < ts then seqMsg.maxTimestamp else ts) ∧
      msg.message.header.blockNumber =
        (if bn < seqMsg.minL1Block then seqMsg.minL1Block
         else if seqMsg.maxL1Block < bn then seqMsg.maxL1Block else bn) ∧
      seqMsg.minTimestamp ≤ msg.message.header.timestamp ∧
      msg.message.header.timestamp ≤ seqMsg.maxTimestamp ∧
      seqMsg.minL1Block ≤ msg.message.header.blockNumber ∧
      msg.message.header.blockNumber ≤ seqMsg.maxL1Block := by
  have hts := clamp_bounds seqMsg.minTimestamp seqMsg.maxTimestamp ts hmm
  have hbn := clamp_bounds seqMsg.minL1Block seqMsg.maxL1Block bn hbb
  rcases hkind with hk | hk
  · subst hk
    simp only [getNextMsg, InboxBackendState.GetPositionWithinMessage] at *
    rw [hw]
    simp only [hseg, BatchSegmentKindL2Message, BatchSegmentKindL2MessageBrotli]
    norm_num
    exact ⟨_, _, ⟨rfl, rfl⟩, rfl, rfl, rfl, rfl, hts.1, hts.2, hbn.1, hbn.2⟩
  · subst hk
    obtain ⟨d, hd⟩ := hdec rfl
    simp only [getNextMsg, InboxBackendState.GetPositionWithinMessage] at *
    rw [hw]
    simp only [hseg, BatchSegmentKindL2Message, BatchSegmentKindL2MessageBrotli]
    norm_num
    rw [hd]
    norm_num
    exact ⟨_, _, ⟨rfl, rfl⟩, rfl, rfl, rfl, rfl, hts.1, hts.2, hbn.1, hbn.2⟩

theorem c6_emitted_l2_clamped_running_unclamped_witness :
    ∃ msg r1, getNextMsg specParseEnv c4Batch (muxWithBatch 0 c4Batch) emptyBackend =
        (some msg, none, r1) ∧
      r1.cachedSegmentTimestamp = 5 ∧ r1.cachedSegmentBlockNumber = 2 ∧
      msg.message.header.timestamp =
        (if 5 < c4Batch.minTimestamp then c4Batch.minTimestamp
         else if c4Batch.maxTimestamp < 5 then c4Batch.maxTimestamp else 5) ∧
      msg.message.header.blockNumber =
        (if 2 < c4Batch.minL1Block then c4Batch.minL1Block
         else if c4Batch.maxL1Block < 2 then c4Batch.maxL1Block else 2) ∧
      c4Batch.minTimestamp ≤ msg.message.header.timestamp ∧
      msg.message.header.timestamp ≤ c4Batch.maxTimestamp ∧
      c4Batch.minL1Block ≤ msg.message.header.blockNumber ∧
      msg.message.header.blockNumber ≤ c4Batch.maxL1Block :=
  c6_emitted_l2_clamped_running_unclamped specParseEnv c4Batch (muxWithBatch 0 c4Batch)
    emptyBackend 2 5 2 0 0 [0x78] (by decide) (by decide) (by decide) (by decide)
    (Or.inl rfl) (fun h => absurd h (by decide))

/-- Within one `getNextMsg` call, `delayedMessagesRead` never decreases,
never exceeds the larger of its old value and the batch's
`afterDelayedMessages` (the only increment happens strictly below the
latter), and the cached sequencer message is untouched. -/
theorem getNextMsg_delayedRead_bounds (env : ParseEnv) (m : sequencerMessage)
    (r : inboxMultiplexer) (b : InboxBackendState)
    (hafter : m.afterDelayedMessages < 2 ^ 64) :
    r.delayedMessagesRead ≤ ((getNextMsg env m r b).2.2).delayedMessagesRead ∧
      ((getNextMsg env m r b).2.2).delayedMessagesRead ≤
        max r.delayedMessagesRead m.afterDelayedMessages ∧
      ((getNextMsg env m r b).2.2).cachedSequencerMessage = r.cachedSequencerMessage := by
  rcases hw : walkSegments m b.GetPositionWithinMessage (m.segments.length + 1)
      r.cachedSegmentNum r.cachedSegmentTimestamp r.cachedSegmentBlockNumber
      r.cachedSubMessageNumber with ⟨sn, ts, bn, sub⟩
  simp only [getNextMsg, hw]
  split
  · exact ⟨Nat.le_refl _, Nat.le_max_left _ _, by trivial⟩
  · split
    · split
      · exact ⟨Nat.le_refl _, Nat.le_max_left _ _, by trivial⟩
      · exact ⟨Nat.le_refl _, Nat.le_max_left _ _, by trivial⟩
    · split
      · split
        · exact ⟨Nat.le_refl _, Nat.le_max_left _ _, by trivial⟩
        · rename_i hnotle
          split
          · exact ⟨Nat.le_refl _, Nat.le_max_left _ _, by trivial⟩
          · have hlt : r.delayedMessagesRead < m.afterDelayedMessages := by omega
            have hmod : (r.delayedMessagesRead + 1) % 2 ^ 64 = r.delayedMessagesRead + 1 :=
              Nat.mod_eq_of_lt (by omega)
            simp only [hmod]
            exact ⟨Nat.le_succ _, by omega, by trivial⟩
      · exact ⟨Nat.le_refl _, Nat.le_max_left _ _, by trivial⟩

/-- The multiplexer state after the tail of `Pop` is the post-`getNextMsg`
state, batch-advanced exactly when the cached segment was last. -/
theorem popTail_mux (env : ParseEnv) (m : sequencerMessage) (r : inboxMultiplexer)
    (b : InboxBackendState) :
    (popTail env m r b).2.2.1 =
      (if IsCachedSegementLast ((getNextMsg env m r b).2.2) m then
        (advanceSequencerMsg ((getNextMsg env m r b).2.2) b).1
       else (getNextMsg env m r b).2.2) := by
  rcases hg : getNextMsg env m r b with ⟨msg, err, r1⟩
  rcases msg with _ | m' <;> rcases err with _ | e <;> simp [popTail, hg] <;>
    split <;> rfl

/-- C9 amended: `DelayedMessagesRead()` never decreases across a `Pop`
on a cached batch whose `afterDelayedMessages` is at least the current
counter (the u64 bound on `afterDelayedMessages` reflects the Go
types). On batch advance the counter is set to `afterDelayedMessages`,
so an adversarial batch promising fewer delayed messages than already
read decreases it: see the counterexample. -/
theorem c9_delayed_read_monotone_when_after_at_least_current (env : ParseEnv)
    (r : inboxMultiplexer) (b : InboxBackendState) (m : sequencerMessage)
    (hc : r.cachedSequencerMessage = some m)
    (hle : r.delayedMessagesRead ≤ m.afterDelayedMessages)
    (hlt : m.afterDelayedMessages < 2 ^ 64) :
    DelayedMessagesRead r ≤ DelayedMessagesRead (Pop env r b).2.2.1 := by
  obtain ⟨h1, h2, h3⟩ := getNextMsg_delayedRead_bounds env m r b hlt
  have hpop : (Pop env r b).2.2.1 = (popTail env m r b).2.2.1 := by
    simp [Pop, hc]
  rw [DelayedMessagesRead, DelayedMessagesRead, hpop, popTail_mux]
  split
  · have hadv : ((advanceSequencerMsg ((getNextMsg env m r b).2.2) b).1).delayedMessagesRead =
        m.afterDelayedMessages := by
      simp [advanceSequencerMsg, h3, hc]
    rw [hadv]
    exact hle
  · exact h1

theorem c9_delayed_read_monotone_witness :
    DelayedMessagesRead (muxWithBatch 0 c3Batch) ≤
      DelayedMessagesRead (Pop specParseEnv (muxWithBatch 0 c3Batch) emptyBackend).2.2.1 :=
  c9_delayed_read_monotone_when_after_at_least_current specParseEnv
    (muxWithBatch 0 c3Batch) emptyBackend c3Batch rfl (by decide) (by decide)

/-- A cached batch with no segments and no delayed messages outstanding
drains in a single `Pop`: the virtual delayed tail emits the canonical
invalid message carrying `afterDelayedMessages`, and the batch is
advanced. -/
theorem pop_empty_batch_drained (env : ParseEnv) (r : inboxMultiplexer)
    (b : InboxBackendState) (m : sequencerMessage)
    (hmux : r.cachedSequencerMessage = some m)
    (hsegs : m.segments = [])
    (hdrained : m.afterDelayedMessages ≤ r.delayedMessagesRead) :
    Pop env r b =
      (some { message := InvalidL1Message,
              delayedMessagesRead := m.afterDelayedMessages },
       none,
       { r with delayedMessagesRead := m.afterDelayedMessages,
                cachedSequencerMessage := none, cachedSegmentNum := 0,
                cachedSegmentTimestamp := 0, cachedSegmentBlockNumber := 0,
                cachedSubMessageNumber := 0 },
       { b with positionWithinMessage := 0,
                sequencerInboxPosition := b.sequencerInboxPosition + 1 }) := by
  obtain ⟨d, dp, cm, cmn, csn, cst, csb, csm, kv⟩ := r
  have hcm : cm = some m := hmux
  subst hcm
  have hgn : getNextMsg env m
      { delayedMessagesRead := d, daProviders := dp, cachedSequencerMessage := some m,
        cachedSequencerMessageNum := cmn, cachedSegmentNum := csn,
        cachedSegmentTimestamp := cst, cachedSegmentBlockNumber := csb,
        cachedSubMessageNumber := csm, keysetValidationMode := kv } b =
      (some { message := InvalidL1Message, delayedMessagesRead := m.afterDelayedMessages },
       none,
       { delayedMessagesRead := d, daProviders := dp, cachedSequencerMessage := some m,
         cachedSequencerMessageNum := cmn, cachedSegmentNum := csn,
         cachedSegmentTimestamp := cst, cachedSegmentBlockNumber := csb,
         cachedSubMessageNumber := csm, keysetValidationMode := kv }) := by
    simp [getNextMsg, walkSegments, hsegs, BatchSegmentKindDelayedMessages,
      BatchSegmentKindL2Message, BatchSegmentKindL2MessageBrotli, hdrained]
  have hlast : IsCachedSegementLast
      { delayedMessagesRead := d, daProviders := dp, cachedSequencerMessage := some m,
        cachedSequencerMessageNum := cmn, cachedSegmentNum := csn,
        cachedSegmentTimestamp := cst, cachedSegmentBlockNumber := csb,
        cachedSubMessageNumber := csm, keysetValidationMode := kv } m = true := by
    simp [IsCachedSegementLast, hsegs, noMoreRealSegments, Nat.not_lt.mpr hdrained]
  simp [Pop, popTail, hgn, hlast, advanceSequencerMsg]

/-- C8: for a DAS batch whose deserialized certificate passes keyset
resolution and signature verification but has
`Timeout < maxTimestamp + 604800`, payload recovery returns null
without error, `parseSequencerMessage` (with the DAS provider
configured) therefore returns the header-only batch with zero segments,
and — with no delayed messages outstanding — a `Pop` over that cached
batch yields only the invalid-message marker and drains the batch. -/
theorem c8_expired_das_cert_header_only_batch (env : ParseEnv) (denv : DasEnv)
    (batchNum batchBlockHash : Nat) (data : List Nat) (mode : KeysetValidationMode)
    (cert : DataAvailabilityCertificate) (keysetPreimage : List Nat) (keyset : Keyset)
    (r : inboxMultiplexer) (b : InboxBackendState) (b0 : Nat) (rest : List Nat)
    (hlen : 40 ≤ data.length) (hdrop : data.drop 40 = b0 :: rest)
    (hknown : env.hdr.IsKnownHeaderByte b0 = true)
    (hdas : env.hdr.IsDASMessageHeaderByte b0 = true)
    (hcert : denv.DeserializeDASCertFrom (data.drop 40) = Except.ok cert)
    (hver : cert.Version < 2)
    (hks : dasGetByHash denv cert.Version cert.KeysetHash = Except.ok keysetPreimage)
    (hkd : denv.DeserializeKeyset keysetPreimage (decide (mode = KeysetDontValidate)) =
      Except.ok keyset)
    (hsig : keyset.VerifySignature cert.SignersMask (denv.SerializeSignableFields cert)
      cert.Sig = Except.ok ())
    (hnoflow : readU64 data 8 + MinLifetimeSecondsForDataAvailabilityCert < 2 ^ 64)
    (htimeout : cert.Timeout < readU64 data 8 + MinLifetimeSecondsForDataAvailabilityCert)
    (hmux : r.cachedSequencerMessage = some (parsedMsgHeader data))
    (hdrained : (parsedMsgHeader data).afterDelayedMessages ≤ r.delayedMessagesRead) :
    RecoverPayloadFromDasBatch denv batchNum data mode = Except.ok none ∧
      parseSequencerMessage env batchNum batchBlockHash data
          [NewDAProviderDAS denv env.hdr] mode = Except.ok (parsedMsgHeader data) ∧
      ∃ r2 b2, Pop env r b =
          (some { message := InvalidL1Message,
                  delayedMessagesRead := (parsedMsgHeader data).afterDelayedMessages },
           none, r2, b2) ∧ r2.cachedSequencerMessage = none := by
  have hrec : RecoverPayloadFromDasBatch denv batchNum data mode = Except.ok none := by
    unfold RecoverPayloadFromDasBatch
    simp only [hcert, hks, hkd, hsig]
    rw [if_neg (by omega), Nat.mod_eq_of_lt hnoflow, if_pos htimeout]
  refine ⟨hrec, ?_, ?_⟩
  · unfold parseSequencerMessage
    rw [if_neg (by omega), hdrop]
    simp only [hknown, Bool.not_eq_true, and_false, if_false, findValidProvider,
      NewDAProviderDAS, hdas, if_true, ite_true, ite_false]
    simp [hrec]
  · exact ⟨_, _, pop_empty_batch_drained env r b (parsedMsgHeader data) hmux rfl hdrained,
      rfl⟩

/-- A concrete certificate whose timeout (0) is under one week past the
batch's `maxTimestamp`. -/
def c8Cert : DataAvailabilityCertificate :=
  { KeysetHash := 0, DataHash := 0, Timeout := 0, Version := 1, SignersMask := 0,
    Sig := [] }

/-- A concrete DAS environment under which `c8Cert` deserializes, its
keyset resolves and verifies, and preimage integrity checks pass. -/
def c8DasEnv : DasEnv :=
  { DeserializeDASCertFrom := fun _ => Except.ok c8Cert
    GetByHash := fun _ => Except.ok []
    FlatHashToTreeHash := fun h => h
    Keccak256Hash := fun _ => 0
    TreeHash := fun _ => 0
    SerializeSignableFields := fun _ => []
    DeserializeKeyset := fun _ _ =>
      Except.ok { VerifySignature := fun _ _ _ => Except.ok () } }

theorem c8_expired_das_cert_header_only_batch_witness :
    RecoverPayloadFromDasBatch c8DasEnv 0 (zeroHeader40 ++ [0x80]) KeysetValidate =
        Except.ok none ∧
      parseSequencerMessage specParseEnv 0 0 (zeroHeader40 ++ [0x80])
          [NewDAProviderDAS c8DasEnv specParseEnv.hdr] KeysetValidate =
        Except.ok (parsedMsgHeader (zeroHeader40 ++ [0x80])) ∧
      ∃ r2 b2, Pop specParseEnv
          (muxWithBatch 0 (parsedMsgHeader (zeroHeader40 ++ [0x80]))) emptyBackend =
          (some { message := InvalidL1Message,
                  delayedMessagesRead :=
                    (parsedMsgHeader (zeroHeader40 ++ [0x80])).afterDelayedMessages },
           none, r2, b2) ∧ r2.cachedSequencerMessage = none :=
  c8_expired_das_cert_header_only_batch specParseEnv c8DasEnv 0 0
    (zeroHeader40 ++ [0x80]) KeysetValidate c8Cert []
    { VerifySignature := fun _ _ _ => Except.ok () }
    (muxWithBatch 0 (parsedMsgHeader (zeroHeader40 ++ [0x80]))) emptyBackend 0x80 []
    (by decide) (by decide) (by decide) (by decide) rfl (by decide) rfl rfl rfl
    (by decide) (by decide) rfl (by decide)
